import Mathlib

/-!
Shallow embedding of `src/getpinfo.c`, a Linux kernel module exposing a
single-slot submit/fetch ("system call" emulation) protocol over a debugfs
file, together with theorems settling the specification claims.

Modelling conventions:
* Bytes are `Nat` (values 0..255 in practice); C strings are the prefix of a
  byte list up to the first NUL (`cstr`).
* The module's global state (`call_task`, `respbuf`) is `KState`; a NULL
  pointer is `none`.  `respbuf` records the initialized contents of the
  heap buffer (the NUL-terminated response text); its allocation is at
  least that long (`MAX_RESP` in the C source).
* `MAX_CALL` (defined in `getpinfo.h`, which is not part of the sources)
  is a parameter `maxCall` of the submit handler.
* The uninitialized stack contents of `callbuf` are a parameter `garbage`
  (a list of length `maxCall`); `copy_from_user` overwrites its first
  `count` bytes with the payload.
* `kmalloc` success/failure is the parameter `allocOk`; the user-space copy
  primitives are modelled as succeeding (returning 0, their "bytes not
  copied" convention).
* Memory-unsafe executions (out-of-bounds store, NULL dereference, `strlen`
  running past the initialized contents) make the handler return `none`.
-/

namespace Getpinfo

/-- Errno value used by `return -EINVAL;`. -/
def EINVAL : Int := 22

/-- Errno value used by `return -EAGAIN;`. -/
def EAGAIN : Int := 11

/-- Errno value used by `return -ENOSPC;`. -/
def ENOSPC : Int := 28

/-- ASCII byte values of a Lean string literal. -/
def bytes (s : String) : List Nat := s.data.map Char.toNat

/-- The recognised verb, the bytes of `"getpinfo"`. -/
def getpinfoVerb : List Nat := bytes "getpinfo"

/-- The value of a byte buffer read as a C string: its contents up to (not
including) the first NUL byte. -/
def cstr (l : List Nat) : List Nat := l.takeWhile (fun x => x != 0)

/-- `strlen` on a byte buffer whose initialized contents are `l`. -/
def cstrlen (l : List Nat) : Nat := (cstr l).length

/-- Fuel-driven core of decimal rendering (`printf %d` digits), most
significant digit first; `acc` holds already-rendered lower digits. -/
def natDecCore : Nat → Nat → List Nat → List Nat
  | 0, _, acc => acc
  | f + 1, n, acc =>
    if n < 10 then (48 + n) :: acc
    else natDecCore f (n / 10) ((48 + n % 10) :: acc)

/-- Decimal rendering of a natural number as ASCII bytes. -/
def natDec (n : Nat) : List Nat := natDecCore (n + 1) n []

/-- `printf %d` / `%ld` rendering of a signed integer as ASCII bytes. -/
def decInt (i : Int) : List Nat :=
  if i < 0 then 45 :: natDec i.natAbs else natDec i.natAbs

/-- A lowercase hexadecimal digit byte, as produced by `printf %x`. -/
def hexDigit (d : Nat) : Nat := if d < 10 then 48 + d else 87 + d

/-- Fuel-driven core of hexadecimal rendering. -/
def natHexCore : Nat → Nat → List Nat → List Nat
  | 0, _, acc => acc
  | f + 1, n, acc =>
    if n < 16 then hexDigit n :: acc
    else natHexCore f (n / 16) (hexDigit (n % 16) :: acc)

/-- Lowercase hexadecimal rendering of a natural number as ASCII bytes. -/
def natHex (n : Nat) : List Nat := natHexCore (n + 1) n []

/-- `printf %08x`: lowercase hexadecimal, zero-padded on the left to (at
least) eight digits. -/
def hex8 (n : Nat) : List Nat :=
  List.replicate (8 - (natHex n).length) 48 ++ natHex n

/-- The kernel-visible metadata of the calling task used by the handler:
its identity (`task_struct` pointer, used for slot-owner comparison), the
results of `get_task_pid`/`pid_vnr` for itself and its `real_parent`, and
the `state`, `flags` and `normal_prio` fields. -/
structure Task where
  tid : Nat
  pidP : Option Int
  parentPidP : Option (Option Int)
  state : Int
  flags : Nat
  normalPrio : Int
deriving DecidableEq

/-- `cur_pid`: `pid_vnr(get_task_pid(call_task, PIDTYPE_PID))`, or 0 when
`get_task_pid` yields NULL. -/
def curPid (t : Task) : Int := t.pidP.getD 0

/-- `parent_pid`: 0 when `real_parent` is NULL or its `get_task_pid` yields
NULL, else `pid_vnr` of the parent's pid. -/
def parentPid (t : Task) : Int :=
  match t.parentPidP with
  | none => 0
  | some p => p.getD 0

/-- The literal failure response written on an unrecognised verb. -/
def failedMsg : List Nat := bytes "Failed: invalid operation\n"

/-- The single `sprintf` line of the success response (`resp_line` in the
source), rendered with the format string
`"\tCurrent PID %d\n\tparent %d\n\tstate %ld\n\tflags %08x\n\tpriority %d\n\tcommand %s\n"`. -/
def respLine (t : Task) (verb : List Nat) : List Nat :=
  bytes "\tCurrent PID " ++ decInt (curPid t) ++
  bytes "\n\tparent " ++ decInt (parentPid t) ++
  bytes "\n\tstate " ++ decInt t.state ++
  bytes "\n\tflags " ++ hex8 t.flags ++
  bytes "\n\tpriority " ++ decInt t.normalPrio ++
  bytes "\n\tcommand " ++ verb ++ bytes "\n"

/-- The full text of the success response: `sprintf(respbuf, "Success:\n")`
followed by `strcat(respbuf, resp_line)`. -/
def successBody (t : Task) (verb : List Nat) : List Nat :=
  bytes "Success:\n" ++ respLine t verb

/-- The module's global state: `call_task` (the recorded caller, `none` for
NULL) and `respbuf` (the initialized contents of the response buffer,
`none` for NULL). -/
structure KState where
  call_task : Option Nat
  respbuf : Option (List Nat)
deriving DecidableEq

/-- The contents of the local `callbuf` after `copy_from_user(callbuf, buf,
count)` and `callbuf[MAX_CALL - 1] = '\0'`: the payload overwrites the
first `count` bytes of the uninitialized stack contents `garbage` (of
length `maxCall`) and the last byte is forced to NUL. -/
def mkCallbuf (maxCall : Nat) (payload garbage : List Nat) : List Nat :=
  ((payload ++ garbage.drop payload.length).take maxCall).set (maxCall - 1) 0

/-- `getpinfo_call` (the write handler).  Parameters: `maxCall` is
`MAX_CALL`; `st` the global state; `cur` the calling task (`current`);
`payload` the user bytes (`count = payload.length`); `garbage` the prior
contents of the stack array `callbuf`; `allocOk` whether `kmalloc`
succeeds.  Returns the new global state and the `ssize_t` result. -/
def getpinfo_call (maxCall : Nat) (st : KState) (cur : Task)
    (payload garbage : List Nat) (allocOk : Bool) : KState × Int :=
  if maxCall ≤ payload.length then
    (st, -EINVAL)
  else if st.call_task.isSome then
    (st, -EAGAIN)
  else if allocOk = false then
    ({ call_task := st.call_task, respbuf := none }, -ENOSPC)
  else if cstr (mkCallbuf maxCall payload garbage) ≠ getpinfoVerb then
    ({ call_task := some cur.tid, respbuf := some (failedMsg ++ [0]) },
     (payload.length : Int))
  else
    ({ call_task := some cur.tid,
       respbuf := some
         (successBody cur (cstr (mkCallbuf maxCall payload garbage)) ++ [0]) },
     (payload.length : Int))

/-- `2^64`, the modulus of `size_t` arithmetic. -/
def U64 : Nat := 2 ^ 64

/-- The `size_t` value of `count - 1` (wraps to `2^64 - 1` when
`count = 0`). -/
def sizeSub1 (count : Nat) : Nat := (count + (U64 - 1)) % U64

/-- The owner path of `getpinfo_return` (lines 146-168 of the source),
acting on the `respbuf` pointer.  `rc = strlen(respbuf) + 1` is the
logical length; when `count < rc` the terminator is stored at the `size_t`
index `count - 1` before `count` bytes are copied out, else `rc` bytes are
copied.  The buffer is freed and both globals cleared.  The `Int` result
is the `copy_to_user` residue (0 on a successful copy), per
`rc = copy_to_user(...); ... return rc;`.  `none` marks a memory-unsafe
execution: NULL dereference, `strlen` finding no NUL in the initialized
contents, or the terminator store falling outside the buffer. -/
def getpinfo_return_owner (count : Nat) :
    Option (List Nat) → Option (KState × Int × List Nat)
  | none => none
  | some buf =>
    if cstrlen buf < buf.length then
      if count < cstrlen buf + 1 then
        if sizeSub1 count < buf.length then
          some (⟨none, none⟩, 0, (buf.set (sizeSub1 count) 0).take count)
        else
          none
      else
        some (⟨none, none⟩, 0, buf.take (cstrlen buf + 1))
    else
      none

/-- `getpinfo_return` (the read handler).  `curTid` is the identity of the
fetching task (`current`), `count` the user buffer capacity.  A task other
than the recorded caller gets result 0 with nothing delivered and the
state untouched. -/
def getpinfo_return (st : KState) (curTid : Nat) (count : Nat) :
    Option (KState × Int × List Nat) :=
  if st.call_task = some curTid then
    getpinfo_return_owner count st.respbuf
  else
    some (st, 0, [])

/-- A byte list none of whose members is NUL. -/
def NulFree (l : List Nat) : Prop := ∀ x ∈ l, x ≠ 0

instance (l : List Nat) : Decidable (NulFree l) :=
  List.decidableBAll _ l

/-- A well-formed response buffer content: a complete NUL-terminated text,
i.e. a NUL-free text followed by the single terminator. -/
def WfBuf (b : List Nat) : Prop :=
  b.getLast? = some 0 ∧ ∀ x ∈ b.dropLast, x ≠ 0

instance (b : List Nat) : Decidable (WfBuf b) :=
  inferInstanceAs (Decidable (_ ∧ _))

/-- Well-formedness of the `respbuf` pointer: nothing to require of NULL,
a complete terminated text otherwise. -/
def WfBufOpt : Option (List Nat) → Prop
  | none => True
  | some b => WfBuf b

instance : (o : Option (List Nat)) → Decidable (WfBufOpt o)
  | none => .isTrue trivial
  | some b => inferInstanceAs (Decidable (WfBuf b))

/-- The slot invariant: the recorded caller is null exactly when the
response buffer pointer is null, and an occupied slot holds a complete
NUL-terminated response. -/
def Inv (st : KState) : Prop :=
  (st.call_task = none ↔ st.respbuf = none) ∧ WfBufOpt st.respbuf

instance (st : KState) : Decidable (Inv st) :=
  inferInstanceAs (Decidable (_ ∧ _))

/-- A concrete task used for witnesses and counterexamples. -/
def task0 : Task :=
  { tid := 1, pidP := some 42, parentPidP := some (some 7),
    state := 0, flags := 4194304, normalPrio := 120 }

theorem nulFree_append {a b : List Nat} (ha : NulFree a) (hb : NulFree b) :
    NulFree (a ++ b) := by
  intro x hx
  rcases List.mem_append.1 hx with h | h
  · exact ha x h
  · exact hb x h

theorem natDecCore_ge (f : Nat) :
    ∀ n acc, (∀ x ∈ acc, 48 ≤ x) → ∀ x ∈ natDecCore f n acc, 48 ≤ x := by
  induction f with
  | zero => intro n acc hacc x hx; exact hacc x hx
  | succ f ih =>
    intro n acc hacc x hx
    unfold natDecCore at hx
    split at hx
    · rcases List.mem_cons.1 hx with rfl | hx
      · omega
      · exact hacc x hx
    · refine ih _ _ ?_ x hx
      intro y hy
      rcases List.mem_cons.1 hy with rfl | hy
      · omega
      · exact hacc y hy

theorem natDec_ge {n x : Nat} (hx : x ∈ natDec n) : 48 ≤ x :=
  natDecCore_ge _ _ _ (by intro y hy; cases hy) x hx

theorem nulFree_natDec (n : Nat) : NulFree (natDec n) := by
  intro x hx
  have := natDec_ge hx
  omega

theorem nulFree_decInt (i : Int) : NulFree (decInt i) := by
  unfold decInt
  split
  · intro x hx
    rcases List.mem_cons.1 hx with rfl | hx
    · omega
    · have := natDec_ge hx; omega
  · exact nulFree_natDec _

theorem hexDigit_ge (d : Nat) : 48 ≤ hexDigit d := by
  unfold hexDigit
  split <;> omega

theorem natHexCore_shape (f : Nat) :
    ∀ n acc, (∀ x ∈ acc, ∃ d, d < 16 ∧ x = hexDigit d) →
      ∀ x ∈ natHexCore f n acc, ∃ d, d < 16 ∧ x = hexDigit d := by
  induction f with
  | zero => intro n acc hacc x hx; exact hacc x hx
  | succ f ih =>
    intro n acc hacc x hx
    unfold natHexCore at hx
    split at hx
    · rcases List.mem_cons.1 hx with rfl | hx
      · exact ⟨n, by omega, rfl⟩
      · exact hacc x hx
    · refine ih _ _ ?_ x hx
      intro y hy
      rcases List.mem_cons.1 hy with rfl | hy
      · exact ⟨n % 16, Nat.mod_lt _ (by omega), rfl⟩
      · exact hacc y hy

theorem natHex_shape {n x : Nat} (hx : x ∈ natHex n) :
    ∃ d, d < 16 ∧ x = hexDigit d :=
  natHexCore_shape _ _ _ (by intro y hy; cases hy) x hx

theorem nulFree_hex8 (n : Nat) : NulFree (hex8 n) := by
  intro x hx
  rcases List.mem_append.1 hx with h | h
  · have := List.eq_of_mem_replicate h
    omega
  · obtain ⟨d, -, rfl⟩ := natHex_shape h
    have := hexDigit_ge d
    omega

theorem natHexCore_length (f : Nat) :
    ∀ n acc k, n < 16 ^ (k + 1) →
      (natHexCore f n acc).length ≤ k + 1 + acc.length := by
  induction f with
  | zero => intro n acc k _; simp only [natHexCore]; omega
  | succ f ih =>
    intro n acc k h
    unfold natHexCore
    split
    · simp only [List.length_cons]
      omega
    · rename_i hn
      have hk : 1 ≤ k := by
        by_contra hk0
        have : k = 0 := by omega
        subst this
        simp at h
        omega
      have h' : n / 16 < 16 ^ ((k - 1) + 1) := by
        rw [Nat.div_lt_iff_lt_mul (by norm_num)]
        have e : (16 : Nat) ^ ((k - 1) + 1) * 16 = 16 ^ (k + 1) := by
          rw [← pow_succ]
          congr 1
          omega
        rw [e]
        exact h
      have := ih (n / 16) (hexDigit (n % 16) :: acc) (k - 1) h'
      simp only [List.length_cons] at this
      omega

theorem natHex_length_le {n k : Nat} (h : n < 16 ^ (k + 1)) :
    (natHex n).length ≤ k + 1 := by
  have := natHexCore_length (n + 1) n [] k h
  simpa using this

theorem hex8_length {n : Nat} (h : n < 2 ^ 32) : (hex8 n).length = 8 := by
  have h16 : n < 16 ^ (7 + 1) := by
    have : (16 : Nat) ^ (7 + 1) = 2 ^ 32 := by norm_num
    omega
  have hl := natHex_length_le h16
  simp only [hex8, List.length_append, List.length_replicate]
  omega

theorem hex8_digits {n x : Nat} (hx : x ∈ hex8 n) :
    x ∈ bytes "0123456789abcdef" := by
  have hd : ∀ d, d < 16 → hexDigit d ∈ bytes "0123456789abcdef" := by decide
  rcases List.mem_append.1 hx with h | h
  · have := List.eq_of_mem_replicate h
    subst this
    decide
  · obtain ⟨d, hd16, rfl⟩ := natHex_shape h
    exact hd d hd16

theorem nulFree_cstr (l : List Nat) : NulFree (cstr l) := by
  intro x hx
  have := List.mem_takeWhile_imp hx
  simpa using this

theorem nulFree_respLine (t : Task) (verb : List Nat) (hv : NulFree verb) :
    NulFree (respLine t verb) := by
  unfold respLine
  exact
    nulFree_append (nulFree_append (nulFree_append (nulFree_append
      (nulFree_append (nulFree_append (nulFree_append (nulFree_append
        (nulFree_append (nulFree_append (nulFree_append (nulFree_append
          (by decide) (nulFree_decInt _)) (by decide)) (nulFree_decInt _))
          (by decide)) (nulFree_decInt _)) (by decide)) (nulFree_hex8 _))
        (by decide)) (nulFree_decInt _)) (by decide)) hv) (by decide)

theorem nulFree_successBody (t : Task) (verb : List Nat) (hv : NulFree verb) :
    NulFree (successBody t verb) := by
  unfold successBody
  exact nulFree_append (by decide) (nulFree_respLine t verb hv)

theorem wfBuf_concat {s : List Nat} (h : NulFree s) : WfBuf (s ++ [0]) := by
  constructor
  · exact List.getLast?_concat s
  · rw [List.dropLast_concat]
    exact h

theorem wfBuf_elim {b : List Nat} (h : WfBuf b) :
    ∃ s, NulFree s ∧ b = s ++ [0] := by
  obtain ⟨h0, hd⟩ := h
  refine ⟨b.dropLast, hd, ?_⟩
  exact (List.dropLast_append_getLast? 0 h0).symm

theorem cstr_append_nul : ∀ s : List Nat, NulFree s → cstr (s ++ [0]) = s := by
  intro s
  induction s with
  | nil => intro _; decide
  | cons a t ih =>
    intro h
    have ha : (a != 0) = true := by
      have := h a (List.mem_cons_self a t)
      simpa using this
    have ht : NulFree t := fun x hx => h x (List.mem_cons_of_mem a hx)
    have htail := ih ht
    unfold cstr at htail ⊢
    rw [List.cons_append, List.takeWhile_cons, ha]
    simp only [if_true, htail]

theorem cstrlen_append_nul {s : List Nat} (h : NulFree s) :
    cstrlen (s ++ [0]) = s.length := by
  unfold cstrlen
  rw [cstr_append_nul s h]

theorem sizeSub1_eq {m : Nat} (h1 : 1 ≤ m) (h2 : m ≤ U64) :
    sizeSub1 m = m - 1 := by
  have hU : U64 = 18446744073709551616 := by norm_num [U64]
  have e : m + (U64 - 1) = (m - 1) + U64 := by omega
  unfold sizeSub1
  rw [e, Nat.add_mod_right]
  exact Nat.mod_eq_of_lt (by omega)

theorem submit_post {maxCall : Nat} {st : KState} (cur : Task)
    (payload garbage : List Nat) (hlen : payload.length < maxCall)
    (hempty : st.call_task = none) :
    ∃ s, NulFree s ∧
      getpinfo_call maxCall st cur payload garbage true =
        (⟨some cur.tid, some (s ++ [0])⟩, (payload.length : Int)) := by
  unfold getpinfo_call
  rw [if_neg (by omega), hempty]
  by_cases hv : cstr (mkCallbuf maxCall payload garbage) = getpinfoVerb
  · refine ⟨successBody cur (cstr (mkCallbuf maxCall payload garbage)),
      nulFree_successBody _ _ (nulFree_cstr _), ?_⟩
    simp [hv]
  · exact ⟨failedMsg, by decide, by simp [hv]⟩

theorem fetch_foreign {st : KState} {u : Nat} (m : Nat)
    (h : st.call_task ≠ some u) :
    getpinfo_return st u m = some (st, 0, []) := by
  unfold getpinfo_return
  rw [if_neg h]

theorem fetch_owner_full {st : KState} {t : Nat} {s : List Nat}
    (hc : st.call_task = some t) (hb : st.respbuf = some (s ++ [0]))
    (hnf : NulFree s) {m : Nat} (hm : s.length + 1 ≤ m) :
    getpinfo_return st t m = some (⟨none, none⟩, 0, s ++ [0]) := by
  have hlen : cstrlen (s ++ [0]) = s.length := cstrlen_append_nul hnf
  have hL : (s ++ [0]).length = s.length + 1 := by simp
  unfold getpinfo_return
  rw [if_pos hc, hb]
  simp only [getpinfo_return_owner]
  rw [hlen]
  rw [if_pos (by simp), if_neg (by omega)]
  rw [← hL, List.take_length]

/-- C1 (amended): a submit whose payload passes the length check
(`count < MAX_CALL`), attempted while the session slot is occupied (the
recorded caller is non-null), returns the "try again" failure `-EAGAIN`
and performs no transition: the recorded caller and the response buffer
are returned unchanged.  The length qualification is forced by the
counterexample below: the length check precedes the slot check, so an
oversized submit while the slot is occupied fails with "invalid argument"
instead (still without a transition). -/
theorem submit_busy_eagain (maxCall : Nat) (st : KState) (cur : Task)
    (payload garbage : List Nat) (allocOk : Bool)
    (hlen : payload.length < maxCall) (hocc : st.call_task.isSome) :
    getpinfo_call maxCall st cur payload garbage allocOk = (st, -EAGAIN) := by
  unfold getpinfo_call
  rw [if_neg (by omega), if_pos hocc]

/-- C1 (witness): a concrete submit against an occupied slot fails with
"try again" and leaves the state unchanged. -/
theorem submit_busy_eagain_wit :
    getpinfo_call 64 ⟨some 2, some (bytes "x" ++ [0])⟩ task0 getpinfoVerb
      (List.replicate 64 0) true =
      (⟨some 2, some (bytes "x" ++ [0])⟩, -EAGAIN) :=
  submit_busy_eagain 64 ⟨some 2, some (bytes "x" ++ [0])⟩ task0 getpinfoVerb
    (List.replicate 64 0) true (by decide) (by decide)

/-- C1 (counterexample): the claim as stated quantifies over every submit
attempted while the slot is occupied, but a submit whose payload length
reaches `MAX_CALL` (here 8) is rejected with "invalid argument", not
"try again", because the length check precedes the slot inspection. -/
theorem submit_busy_oversized_ce :
    (getpinfo_call 8 ⟨some 2, some (bytes "x" ++ [0])⟩ task0
        (List.replicate 8 104) (List.replicate 8 0) true).2 = -EINVAL ∧
    (-EINVAL : Int) ≠ -EAGAIN := by
  decide

/-- C2: after a submit by task `cur` (empty slot, allocation succeeding,
length check passing), a fetch by any task `u ≠ cur` reports result 0,
delivers no bytes, and leaves the slot, the recorded caller and the
response buffer unchanged; a subsequent fetch by the recorded caller (with
enough capacity) still delivers exactly the response buffer produced by
that caller's submit. -/
theorem foreign_fetch_preserves (maxCall : Nat) (cur : Task) (u : Nat)
    (payload garbage : List Nat) (m : Nat) (st1 : KState) (r : Int)
    (hlen : payload.length < maxCall) (hu : u ≠ cur.tid)
    (hst : getpinfo_call maxCall ⟨none, none⟩ cur payload garbage true =
      (st1, r)) :
    getpinfo_return st1 u m = some (st1, 0, []) ∧
    ∀ m' b, st1.respbuf = some b → b.length ≤ m' →
      getpinfo_return st1 cur.tid m' = some (⟨none, none⟩, 0, b) := by
  obtain ⟨s, hnf, heq⟩ := submit_post cur payload garbage hlen
    (show (⟨none, none⟩ : KState).call_task = none from rfl)
  rw [hst] at heq
  injection heq with h1 h2
  subst h1
  constructor
  · refine fetch_foreign m ?_
    intro hx
    exact hu (Option.some.inj hx).symm
  · intro m' b hb hm'
    have hbe : b = s ++ [0] := (Option.some.inj hb).symm
    subst hbe
    exact fetch_owner_full rfl rfl hnf (by simpa using hm')

/-- C2 (witness): concrete foreign fetch on an occupied slot, then the
owner's fetch delivering the full response. -/
theorem foreign_fetch_preserves_wit :
    getpinfo_return ⟨some 1, some (failedMsg ++ [0])⟩ 2 7 =
        some (⟨some 1, some (failedMsg ++ [0])⟩, 0, []) ∧
    getpinfo_return ⟨some 1, some (failedMsg ++ [0])⟩ 1 27 =
        some (⟨none, none⟩, 0, failedMsg ++ [0]) := by
  have h := foreign_fetch_preserves 64 task0 2 (bytes "hi")
    (List.replicate 64 0) 7 ⟨some 1, some (failedMsg ++ [0])⟩ 2
    (by decide) (by decide) (by decide)
  exact ⟨h.1, h.2 27 (failedMsg ++ [0]) rfl (by decide)⟩

/-- C3 (code bug): the claim says an owner fetch reports the logical
length (here `cstrlen + 1 = 27`) when the capacity suffices, and exactly
`m` bytes (here 10) when it truncates.  The code instead returns the
`copy_to_user` residue, which is 0 on a successful copy, in both branches
(`rc = copy_to_user(...); ... return rc;`), contradicting its own comment
that a read returns the number of bytes read.  The delivered bytes
themselves are as specified (full buffer, resp. `m` bytes ending in NUL). -/
theorem fetch_reports_copy_residue :
    getpinfo_return ⟨some 1, some (failedMsg ++ [0])⟩ 1 512 =
        some (⟨none, none⟩, 0, failedMsg ++ [0]) ∧
    cstrlen (failedMsg ++ [0]) + 1 = 27 ∧
    getpinfo_return ⟨some 2, some (failedMsg ++ [0])⟩ 2 10 =
        some (⟨none, none⟩, 0, bytes "Failed: i" ++ [0]) := by
  decide

/-- C4 (amended): a submit that passes the length check and claims the
empty slot, whose call buffer read as a C string (after `copy_from_user`
and the forced terminator at `MAX_CALL - 1`) is not the recognised verb,
sets the response buffer to exactly `"Failed: invalid operation\n"`
(NUL-terminated), leaves the slot occupied by the submitting task, and
reports the full byte count as consumed.  The C-string qualification is
forced by the counterexample below: the handler compares with `strcmp`,
so a payload that is not the exact verb bytes can still take the success
branch when the bytes from its first NUL onward are ignored — e.g. the
10-byte payload `getpinfo\0x`. -/
theorem submit_invalid_verb (maxCall : Nat) (st : KState) (cur : Task)
    (payload garbage : List Nat) (hlen : payload.length < maxCall)
    (hempty : st.call_task = none)
    (hv : cstr (mkCallbuf maxCall payload garbage) ≠ getpinfoVerb) :
    getpinfo_call maxCall st cur payload garbage true =
      (⟨some cur.tid, some (failedMsg ++ [0])⟩, (payload.length : Int)) := by
  unfold getpinfo_call
  rw [if_neg (by omega), hempty]
  simp [hv]

/-- C4 (witness): submitting `hello` yields the failure response in the
buffer, an occupied slot, and the byte count 5. -/
theorem submit_invalid_verb_wit :
    getpinfo_call 64 ⟨none, none⟩ task0 (bytes "hello")
      (List.replicate 64 0) true =
      (⟨some task0.tid, some (failedMsg ++ [0])⟩,
        ((bytes "hello").length : Int)) :=
  submit_invalid_verb 64 ⟨none, none⟩ task0 (bytes "hello")
    (List.replicate 64 0) (by decide) rfl (by decide)

/-- C4 (counterexample): the claim as stated quantifies over every payload
that "is not the recognised verb", i.e. differs from the exact bytes
`getpinfo`.  The 10-byte payload `getpinfo\0x` is not the verb, yet
`strcmp` stops at its embedded NUL, so the handler takes the success
branch: the response buffer is set to the success response, not to
`"Failed: invalid operation\n"`. -/
theorem submit_invalid_verb_ce :
    (bytes "getpinfo" ++ [0, 120]) ≠ getpinfoVerb ∧
    getpinfo_call 64 ⟨none, none⟩ task0 (bytes "getpinfo" ++ [0, 120])
        (List.replicate 64 0) true =
      (⟨some task0.tid, some (successBody task0 getpinfoVerb ++ [0])⟩, 10) ∧
    successBody task0 getpinfoVerb ++ [0] ≠ failedMsg ++ [0] := by
  decide

/-- C5: a submit recognised as the verb fills the response buffer with the
line `Success:\n` followed by exactly six tab-prefixed key-value lines in
the order PID, parent, state, flags, priority, command, NUL-terminated;
the flags field is eight lowercase hexadecimal digits, zero-padded (for
any 32-bit flags word), and the parent identifier is zero when no parent
is observable. -/
theorem submit_success_format (maxCall : Nat) (st : KState) (cur : Task)
    (payload garbage : List Nat) (hlen : payload.length < maxCall)
    (hempty : st.call_task = none)
    (hv : cstr (mkCallbuf maxCall payload garbage) = getpinfoVerb)
    (hflags : cur.flags < 2 ^ 32) :
    (getpinfo_call maxCall st cur payload garbage true).1.respbuf =
      some (bytes "Success:\n" ++
        (bytes "\tCurrent PID " ++ decInt (curPid cur) ++ bytes "\n") ++
        (bytes "\tparent " ++ decInt (parentPid cur) ++ bytes "\n") ++
        (bytes "\tstate " ++ decInt cur.state ++ bytes "\n") ++
        (bytes "\tflags " ++ hex8 cur.flags ++ bytes "\n") ++
        (bytes "\tpriority " ++ decInt cur.normalPrio ++ bytes "\n") ++
        (bytes "\tcommand " ++ getpinfoVerb ++ bytes "\n") ++ [0]) ∧
    (hex8 cur.flags).length = 8 ∧
    (∀ x ∈ hex8 cur.flags, x ∈ bytes "0123456789abcdef") ∧
    (cur.parentPidP = none → parentPid cur = 0) := by
  refine ⟨?_, hex8_length hflags, fun x hx => hex8_digits hx, ?_⟩
  · have hnle : ¬ maxCall ≤ payload.length := by omega
    have e2 : bytes "\n\tparent " = bytes "\n" ++ bytes "\tparent " := by
      decide
    have e3 : bytes "\n\tstate " = bytes "\n" ++ bytes "\tstate " := by
      decide
    have e4 : bytes "\n\tflags " = bytes "\n" ++ bytes "\tflags " := by
      decide
    have e5 : bytes "\n\tpriority " = bytes "\n" ++ bytes "\tpriority " := by
      decide
    have e6 : bytes "\n\tcommand " = bytes "\n" ++ bytes "\tcommand " := by
      decide
    simp [getpinfo_call, hempty, hnle, hv, successBody, respLine,
      e2, e3, e4, e5, e6, List.append_assoc]
  · intro hp
    unfold parentPid
    rw [hp]

/-- C5 (witness): a concrete recognised submit (with `MAX_CALL = 9`, where
the forced terminator lands right after the payload) produces the
formatted success response. -/
theorem submit_success_format_wit :
    (getpinfo_call 9 ⟨none, none⟩ task0 getpinfoVerb (List.replicate 9 65)
        true).1.respbuf =
      some (bytes "Success:\n" ++
        (bytes "\tCurrent PID " ++ decInt (curPid task0) ++ bytes "\n") ++
        (bytes "\tparent " ++ decInt (parentPid task0) ++ bytes "\n") ++
        (bytes "\tstate " ++ decInt task0.state ++ bytes "\n") ++
        (bytes "\tflags " ++ hex8 task0.flags ++ bytes "\n") ++
        (bytes "\tpriority " ++ decInt task0.normalPrio ++ bytes "\n") ++
        (bytes "\tcommand " ++ getpinfoVerb ++ bytes "\n") ++ [0]) ∧
    (hex8 task0.flags).length = 8 ∧
    (∀ x ∈ hex8 task0.flags, x ∈ bytes "0123456789abcdef") ∧
    (task0.parentPidP = none → parentPid task0 = 0) :=
  submit_success_format 9 ⟨none, none⟩ task0 getpinfoVerb
    (List.replicate 9 65) (by decide) rfl (by decide) (by decide)

/-- C6: a submit whose payload length reaches `MAX_CALL` is rejected with
"invalid argument", and the session slot (recorded caller and response
buffer) is left exactly as it was. -/
theorem submit_oversized_einval (maxCall : Nat) (st : KState) (cur : Task)
    (payload garbage : List Nat) (allocOk : Bool)
    (h : maxCall ≤ payload.length) :
    getpinfo_call maxCall st cur payload garbage allocOk = (st, -EINVAL) := by
  unfold getpinfo_call
  rw [if_pos h]

/-- C6 (witness): an oversized submit against an occupied slot returns
"invalid argument" with the state untouched. -/
theorem submit_oversized_einval_wit :
    getpinfo_call 8 ⟨some 3, some (failedMsg ++ [0])⟩ task0
      (List.replicate 8 104) (List.replicate 8 0) true =
      (⟨some 3, some (failedMsg ++ [0])⟩, -EINVAL) :=
  submit_oversized_einval 8 ⟨some 3, some (failedMsg ++ [0])⟩ task0
    (List.replicate 8 104) (List.replicate 8 0) true (by decide)

/-- C7: a submit past the length and slot checks whose buffer allocation
fails returns "no space"; the recorded caller remains null and no buffer
is retained (the global buffer pointer holds the NULL allocation result). -/
theorem submit_alloc_fail_enospc (maxCall : Nat) (st : KState) (cur : Task)
    (payload garbage : List Nat) (hlen : payload.length < maxCall)
    (hempty : st.call_task = none) :
    getpinfo_call maxCall st cur payload garbage false =
      (⟨none, none⟩, -ENOSPC) := by
  unfold getpinfo_call
  rw [if_neg (by omega), hempty]
  simp

/-- C7 (witness): a concrete failing allocation yields "no space" and an
unoccupied slot. -/
theorem submit_alloc_fail_enospc_wit :
    getpinfo_call 64 ⟨none, none⟩ task0 (bytes "hi")
      (List.replicate 64 0) false = (⟨none, none⟩, -ENOSPC) :=
  submit_alloc_fail_enospc 64 ⟨none, none⟩ task0 (bytes "hi")
    (List.replicate 64 0) (by decide) rfl

/-- C8: the slot invariant — the recorded caller is null exactly when the
response buffer pointer is null, and an occupied slot holds a complete
NUL-terminated text response — is preserved by every submit and by every
completed fetch; moreover an owner fetch clears the buffer pointer and the
recorded caller together (both become null). -/
theorem slot_invariant_preserved (st : KState) (hInv : Inv st) :
    (∀ maxCall cur payload garbage allocOk,
        Inv (getpinfo_call maxCall st cur payload garbage allocOk).1) ∧
    (∀ tid m out, getpinfo_return st tid m = some out →
        Inv out.1 ∧ (st.call_task = some tid → out.1 = ⟨none, none⟩)) := by
  constructor
  · intro maxCall cur payload garbage allocOk
    unfold getpinfo_call
    by_cases h1 : maxCall ≤ payload.length
    · rw [if_pos h1]
      exact hInv
    · rw [if_neg h1]
      by_cases h2 : st.call_task.isSome = true
      · rw [if_pos h2]
        exact hInv
      · rw [if_neg h2]
        have hct : st.call_task = none := by
          cases hcase : st.call_task
          · rfl
          · rw [hcase] at h2
            simp at h2
        by_cases h3 : allocOk = false
        · rw [if_pos h3]
          exact ⟨by simp [hct], trivial⟩
        · rw [if_neg h3]
          by_cases h4 : cstr (mkCallbuf maxCall payload garbage) ≠ getpinfoVerb
          · rw [if_pos h4]
            exact ⟨by simp, wfBuf_concat (by decide)⟩
          · rw [if_neg h4]
            exact ⟨by simp,
              wfBuf_concat (nulFree_successBody _ _ (nulFree_cstr _))⟩
  · intro tid m out h
    unfold getpinfo_return at h
    by_cases hc : st.call_task = some tid
    · rw [if_pos hc] at h
      cases hb : st.respbuf with
      | none =>
        rw [hb] at h
        exact absurd h (by simp [getpinfo_return_owner])
      | some buf =>
        rw [hb] at h
        simp only [getpinfo_return_owner] at h
        split at h
        · split at h
          · split at h
            · injection h with h'
              subst h'
              exact ⟨⟨by simp, trivial⟩, fun _ => rfl⟩
            · exact absurd h (by simp)
          · injection h with h'
            subst h'
            exact ⟨⟨by simp, trivial⟩, fun _ => rfl⟩
        · exact absurd h (by simp)
    · rw [if_neg hc] at h
      injection h with h'
      subst h'
      exact ⟨hInv, fun habs => absurd habs hc⟩

/-- C8 (witness): the invariant holds of the empty initial state and is
preserved across a concrete submit. -/
theorem slot_invariant_preserved_wit :
    Inv (getpinfo_call 64 ⟨none, none⟩ task0 (bytes "hi")
        (List.replicate 64 0) true).1 :=
  (slot_invariant_preserved ⟨none, none⟩ (by decide)).1 64 task0 (bytes "hi")
    (List.replicate 64 0) true

/-- C9 (code bug): with the payload being exactly the eight bytes
`getpinfo` (no terminator, `n = 8`) and `MAX_CALL = 10`, recognition of
the verb depends on the prior (uninitialized) contents of the local call
buffer: `strcmp` runs past the copied bytes, so a nonzero byte at index 8
(here `A`) makes the handler produce the failure response, while a zero
byte there makes it produce the success response.  The claim (and the
specification) says the verb is recognised regardless of those prior
contents. -/
theorem verb_check_reads_uninit :
    (getpinfo_call 10 ⟨none, none⟩ task0 getpinfoVerb
        (List.replicate 10 65) true).1.respbuf = some (failedMsg ++ [0]) ∧
    (getpinfo_call 10 ⟨none, none⟩ task0 getpinfoVerb
        (List.replicate 10 0) true).1.respbuf =
      some (successBody task0 getpinfoVerb ++ [0]) := by
  decide

/-- C10 (amended): for an owner fetch with capacity `m` satisfying
`1 ≤ m < strlen(respbuf) + 1` (and `m` in `size_t` range), the store of
the terminator at index `m - 1` is within the bounds of the response
buffer's contents, and the fetch completes without a memory fault.  The
qualification `1 ≤ m` is forced by the counterexample below: at `m = 0`
the `size_t` index `m - 1` wraps to `2^64 - 1` and the store is out of
bounds. -/
theorem trunc_store_inbounds (st : KState) (t : Nat) (b : List Nat) (m : Nat)
    (hc : st.call_task = some t) (hb : st.respbuf = some b) (hwf : WfBuf b)
    (h1 : 1 ≤ m) (h2 : m < cstrlen b + 1) (hm : m < U64) :
    sizeSub1 m < b.length ∧ (getpinfo_return st t m).isSome = true := by
  obtain ⟨s, hnf, rfl⟩ := wfBuf_elim hwf
  have hcl : cstrlen (s ++ [0]) = s.length := cstrlen_append_nul hnf
  have hL : (s ++ [0]).length = s.length + 1 := by simp
  have hss : sizeSub1 m = m - 1 := sizeSub1_eq h1 (by omega)
  rw [hcl] at h2
  constructor
  · rw [hss, hL]
    omega
  · unfold getpinfo_return
    rw [if_pos hc, hb]
    simp only [getpinfo_return_owner]
    rw [hcl, hss, if_pos (by simp), if_pos (by omega),
      if_pos (by rw [hL]; omega)]
    rfl

/-- C10 (witness): a concrete in-range truncating fetch (capacity 10
against logical length 27) stores the terminator in bounds and completes. -/
theorem trunc_store_inbounds_wit :
    sizeSub1 10 < (failedMsg ++ [0]).length ∧
    (getpinfo_return ⟨some 1, some (failedMsg ++ [0])⟩ 1 10).isSome = true :=
  trunc_store_inbounds ⟨some 1, some (failedMsg ++ [0])⟩ 1
    (failedMsg ++ [0]) 10 rfl rfl (by decide) (by decide) (by decide)
    (by decide)

/-- C10 (counterexample): the claim asserts the terminator store is in
bounds for every capacity smaller than the logical length, "including
`m = 0`"; at `m = 0` the `size_t` index `count - 1` wraps to `2^64 - 1`,
the store is out of the buffer's bounds, and the modelled fetch faults. -/
theorem trunc_store_oob_at_zero :
    getpinfo_return ⟨some 1, some (failedMsg ++ [0])⟩ 1 0 = none ∧
    0 < cstrlen (failedMsg ++ [0]) + 1 ∧
    ¬ sizeSub1 0 < (failedMsg ++ [0]).length := by
  decide

end Getpinfo
